import Mathlib

/-!
Shallow embedding of the trace-buffer core of `src/source/kernel/io_trace.c`
(standalone-linux-io-tracer): client attach/detach lifecycle, tracer
initialization/teardown, buffer sizing, and the two event emitters
(`iotrace_trace_bio`, `iotrace_trace_desc`), together with proofs of the
specification claims about them.

Kernel collaborators that are not part of this repository's shown source
(the octf ring-buffer library, procfs allocation, the tracepoint host) are
modelled at their interface boundary: their outcomes are explicit inputs
(environment fields) or are modelled from the specification where noted.
-/

namespace IoTraceModel

/-- `SECTOR_SHIFT` from io_trace.c line 19. -/
def SECTOR_SHIFT : Nat := 9

/-- Linux errno values; the kernel functions return their negations. -/
def ENOMEM : Int := 12

/-- errno EINVAL (invalid argument). -/
def EINVAL : Int := 22

/-- errno ENOSPC (no space left). -/
def ENOSPC : Int := 28

/-- Modulus of a 64-bit machine word (`uint64_t` / `atomic64_t` arithmetic). -/
def U64 : Nat := 2 ^ 64

/-- Per-cpu `struct iotrace_proc_file` as seen by `init_tracers`: whether
`trace_ring` is non-NULL, and the outcome the environment (the octf library)
gives to `octf_trace_open` for this cpu (0 = success, negative errno on
failure). The ring pointer, size and consumer header are opaque here; only
presence and the open outcome decide control flow in `init_tracers`. -/
structure ProcFile where
  hasRing : Bool
  openResult : Int
deriving DecidableEq, Repr

/-- Environment of one `init_tracers` call: whether `alloc_percpu` succeeds,
and the per-online-cpu proc files (one list entry per online cpu, in
iteration order of `for_each_online_cpu`). -/
structure InitEnv where
  allocOk : Bool
  files : List ProcFile
deriving DecidableEq, Repr

/-- Audit record of one `init_tracers` call (io_trace.c lines 168-208):
the returned code, whether the per-cpu handle table (`state->traces`) is
still allocated when the call returns, the indices of cpus whose
`octf_trace_open` succeeded during the scan, and the indices of cpus whose
slot was passed to `octf_trace_close` during rollback. -/
structure InitOutcome where
  result : Int
  tableAllocated : Bool
  opened : List Nat
  closed : List Nat
deriving DecidableEq, Repr

/-- The `for_each_online_cpu` scan of `init_tracers` (lines 180-196):
for each cpu, first fail with `-EINVAL` if `trace_ring` is NULL, else take
the cpu's `octf_trace_open` outcome, breaking at the first failure.
Returns the `result` value after the loop and the list of cpu indices
opened successfully (in order). -/
def scanOpen : List ProcFile → Nat → Int × List Nat
  | [], _ => (0, [])
  | f :: rest, i =>
    if !f.hasRing then (-EINVAL, [])
    else if f.openResult ≠ 0 then (f.openResult, [])
    else ((scanOpen rest (i + 1)).1, i :: (scanOpen rest (i + 1)).2)

/-- `init_tracers` (io_trace.c lines 168-208). `alloc_percpu` failure
returns `-ENOMEM` with no table. On any scan failure the rollback loop
closes every online cpu's slot (lines 199-202; unopened slots hold NULL
handles, close of which is idempotent) and frees the table (line 203). -/
def init_tracers (env : InitEnv) : InitOutcome :=
  if !env.allocOk then
    { result := -ENOMEM, tableAllocated := false, opened := [], closed := [] }
  else if (scanOpen env.files 0).1 ≠ 0 then
    { result := (scanOpen env.files 0).1, tableAllocated := false,
      opened := (scanOpen env.files 0).2,
      closed := List.range env.files.length }
  else
    { result := 0, tableAllocated := true,
      opened := (scanOpen env.files 0).2, closed := [] }

/-- Lifecycle state guarded by `state->client_mutex`: the signed client
count (`int clients`, so it can go negative), whether the
`block_bio_queue` tracepoint hook is registered, and whether the per-cpu
tracer handle table is allocated and open. -/
structure LifeState where
  clients : Int
  hookRegistered : Bool
  tracersOpen : Bool
deriving DecidableEq, Repr

/-- State at module load: zeroed context, hook unregistered, no tracers. -/
def initState : LifeState :=
  { clients := 0, hookRegistered := false, tracersOpen := false }

/-- Externally visible lifecycle actions performed by attach/detach, used
to count registrations/unregistrations and tracer setup/teardown. -/
inductive Action where
  | tracersInit
  | tracersDeinit
  | hookReg
  | hookUnreg
deriving DecidableEq, Repr

/-- Environment of one `iotrace_attach_client` call: the `init_tracers`
environment and the outcome of `register_trace_block_bio_queue`
(0 = success). -/
structure AttachEnv where
  initEnv : InitEnv
  regResult : Int
deriving DecidableEq, Repr

/-- `iotrace_attach_client` (io_trace.c lines 283-311). When `clients` is 0:
run `init_tracers`; on its failure return its code with state unchanged;
then register the hook; on registration failure tear the tracers down
(`deinit_tracers`) and return the registration error, leaving `clients`
untouched. On success, and whenever `clients` was already nonzero, increment
`clients`. Returns (result, new state, actions performed). -/
def iotrace_attach_client (env : AttachEnv) (s : LifeState) :
    Int × LifeState × List Action :=
  if s.clients = 0 then
    let o := init_tracers env.initEnv
    if o.result ≠ 0 then (o.result, s, [])
    else if env.regResult ≠ 0 then
      (env.regResult, s, [.tracersInit, .tracersDeinit])
    else
      let s' : LifeState :=
        { clients := s.clients + 1, hookRegistered := true, tracersOpen := true }
      (0, s', [.tracersInit, .hookReg])
  else
    (0, { s with clients := s.clients + 1 }, [])

/-- `iotrace_detach_client` (io_trace.c lines 319-341): decrement `clients`;
if the result is nonzero return at once; otherwise unregister the hook and
deinitialize the tracers. Returns (new state, actions performed). -/
def iotrace_detach_client (s : LifeState) : LifeState × List Action :=
  let c := s.clients - 1
  if c ≠ 0 then ({ s with clients := c }, [])
  else
    ({ s with clients := c, hookRegistered := false, tracersOpen := false },
     [.hookUnreg, .tracersDeinit])

/-- One lifecycle call: an attach (with its environment) or a detach. -/
inductive Op where
  | attach (env : AttachEnv)
  | detach
deriving DecidableEq, Repr

/-- Execute one lifecycle call. -/
def step (op : Op) (s : LifeState) : LifeState × List Action :=
  match op with
  | .attach env =>
    let (_, s', as) := iotrace_attach_client env s
    (s', as)
  | .detach => iotrace_detach_client s

/-- Execute a sequence of lifecycle calls, concatenating their actions. -/
def run : List Op → LifeState → LifeState × List Action
  | [], s => (s, [])
  | op :: rest, s =>
    ((run rest (step op s).1).1, (step op s).2 ++ (run rest (step op s).1).2)

/-- The precondition of the attach/detach API, checked along the run:
`detach` is never called when the running count of successful attaches
minus detaches (which equals `clients`, by `c1_lifecycle_invariant`)
is not positive. -/
def wfFrom (s : LifeState) : List Op → Bool
  | [] => true
  | op :: rest =>
    (match op with
     | .detach => decide (0 < s.clients)
     | .attach _ => true) && wfFrom (step op s).1 rest

/-- Number of occurrences of action `a` in a list of actions. -/
def countAct (a : Action) (as : List Action) : Nat :=
  as.countP (fun x => x == a)

/-- Number of steps along the run at which `clients` transitions from 0 to
a positive value. -/
def countUp (s : LifeState) : List Op → Nat
  | [] => 0
  | op :: rest =>
    (if s.clients = 0 ∧ 0 < (step op s).1.clients then 1 else 0) +
      countUp (step op s).1 rest

/-- Number of steps along the run at which `clients` transitions from a
positive value to 0. -/
def countDown (s : LifeState) : List Op → Nat
  | [] => 0
  | op :: rest =>
    (if 0 < s.clients ∧ (step op s).1.clients = 0 then 1 else 0) +
      countDown (step op s).1 rest

/-- The lifecycle invariant of the spec data-model section: the client
count is non-negative, and the hook is registered, and the tracers are
open, exactly when the count is positive. -/
def Inv (s : LifeState) : Prop :=
  0 ≤ s.clients ∧ (s.hookRegistered = true ↔ 0 < s.clients) ∧
    (s.tracersOpen = true ↔ 0 < s.clients)

lemma countAct_append (a : Action) (xs ys : List Action) :
    countAct a (xs ++ ys) = countAct a xs + countAct a ys :=
  List.countP_append _ _ _

/-- Each lifecycle step registers the hook exactly once when the client
count makes a 0→positive transition and zero times otherwise, and
unregisters it exactly once when the count makes a positive→0 transition
and zero times otherwise — for every state, with no reachability
assumption. -/
lemma step_hook_counts (op : Op) (s : LifeState) :
    countAct .hookReg (step op s).2 =
      (if s.clients = 0 ∧ 0 < (step op s).1.clients then 1 else 0) ∧
    countAct .hookUnreg (step op s).2 =
      (if 0 < s.clients ∧ (step op s).1.clients = 0 then 1 else 0) := by
  cases op with
  | attach env =>
    by_cases h0 : s.clients = 0
    · by_cases hi : (init_tracers env.initEnv).result = 0
      · by_cases hr : env.regResult = 0
        · simp [step, iotrace_attach_client, h0, hi, hr, countAct]
        · simp [step, iotrace_attach_client, h0, hi, hr, countAct]
      · simp [step, iotrace_attach_client, h0, hi, countAct]
    · have h1 : ¬ (0 < s.clients ∧ s.clients + 1 = 0) := by omega
      simp [step, iotrace_attach_client, h0, h1, countAct]
  | detach =>
    by_cases hc : s.clients - 1 = 0
    · have h1 : s.clients = 1 := by omega
      simp [step, iotrace_detach_client, hc, h1, countAct]
    · have h1 : ¬ (s.clients = 0 ∧ 0 < s.clients - 1) := by omega
      have h2 : ¬ (0 < s.clients ∧ s.clients - 1 = 0) := fun h => hc h.2
      have h3 : ¬ (s.clients = 0 ∧ 1 < s.clients) := by omega
      simp [step, iotrace_detach_client, hc, h1, h2, h3, countAct]

/-- One lifecycle step preserves the invariant, provided a detach is only
performed while the count is positive. -/
lemma step_Inv (op : Op) (s : LifeState) (hI : Inv s)
    (hg : op = Op.detach → 0 < s.clients) : Inv (step op s).1 := by
  obtain ⟨hc, hh, ht⟩ := hI
  cases op with
  | attach env =>
    by_cases h0 : s.clients = 0
    · by_cases hi : (init_tracers env.initEnv).result = 0
      · by_cases hr : env.regResult = 0
        · have hstep : (step (Op.attach env) s).1 =
              { clients := s.clients + 1, hookRegistered := true,
                tracersOpen := true } := by
            simp [step, iotrace_attach_client, h0, hi, hr]
          rw [hstep]
          exact ⟨by simp; omega, by simp [h0], by simp [h0]⟩
        · have hstep : (step (Op.attach env) s).1 = s := by
            simp [step, iotrace_attach_client, h0, hi, hr]
          rw [hstep]
          exact ⟨hc, hh, ht⟩
      · have hstep : (step (Op.attach env) s).1 = s := by
          simp [step, iotrace_attach_client, h0, hi]
        rw [hstep]
        exact ⟨hc, hh, ht⟩
    · have hstep : (step (Op.attach env) s).1 =
          { s with clients := s.clients + 1 } := by
        simp [step, iotrace_attach_client, h0]
      rw [hstep]
      refine ⟨by show (0:Int) ≤ s.clients + 1; omega, ?_, ?_⟩
      · show s.hookRegistered = true ↔ 0 < s.clients + 1
        exact ⟨fun _ => by omega, fun _ => hh.mpr (by omega)⟩
      · show s.tracersOpen = true ↔ 0 < s.clients + 1
        exact ⟨fun _ => by omega, fun _ => ht.mpr (by omega)⟩
  | detach =>
    have hpos : 0 < s.clients := hg rfl
    by_cases hc1 : s.clients - 1 = 0
    · have hstep : (step Op.detach s).1 = { s with clients := s.clients - 1, hookRegistered := false, tracersOpen := false } := by
        simp [step, iotrace_detach_client, hc1]
      rw [hstep]
      refine ⟨by show (0:Int) ≤ s.clients - 1; omega, ?_, ?_⟩
      · show false = true ↔ 0 < s.clients - 1
        simp [hc1]
      · show false = true ↔ 0 < s.clients - 1
        simp [hc1]
    · have hstep : (step Op.detach s).1 = { s with clients := s.clients - 1 } := by
        simp [step, iotrace_detach_client, hc1]
      rw [hstep]
      refine ⟨by show (0:Int) ≤ s.clients - 1; omega, ?_, ?_⟩
      · show s.hookRegistered = true ↔ 0 < s.clients - 1
        exact ⟨fun _ => by omega, fun _ => hh.mpr (by omega)⟩
      · show s.tracersOpen = true ↔ 0 < s.clients - 1
        exact ⟨fun _ => by omega, fun _ => ht.mpr (by omega)⟩

/-- Along any run satisfying the attach/detach precondition the invariant
is preserved and the number of hook registrations (resp. unregistrations)
equals the number of 0→positive (resp. positive→0) transitions of the
count. -/
lemma run_invariant (ops : List Op) :
    ∀ s : LifeState, Inv s → wfFrom s ops = true →
      Inv (run ops s).1 ∧
      countAct .hookReg (run ops s).2 = countUp s ops ∧
      countAct .hookUnreg (run ops s).2 = countDown s ops := by
  induction ops with
  | nil => exact fun s hI _ => ⟨hI, rfl, rfl⟩
  | cons op rest ih =>
    intro s hI hwf
    have hgw : (op = Op.detach → 0 < s.clients) ∧
        wfFrom (step op s).1 rest = true := by
      cases op with
      | attach env =>
        simp [wfFrom] at hwf
        exact ⟨by simp, hwf⟩
      | detach =>
        simp [wfFrom] at hwf
        exact ⟨fun _ => hwf.1, hwf.2⟩
    obtain ⟨hg, hwf'⟩ := hgw
    have hI' := step_Inv op s hI hg
    have hcnt := step_hook_counts op s
    have hrest := ih (step op s).1 hI' hwf'
    refine ⟨hrest.1, ?_, ?_⟩
    · show countAct .hookReg ((step op s).2 ++ (run rest (step op s).1).2) = _
      rw [countAct_append, hcnt.1, hrest.2.1]
      rfl
    · show countAct .hookUnreg ((step op s).2 ++ (run rest (step op s).1).2) = _
      rw [countAct_append, hcnt.2, hrest.2.2]
      rfl

/-- The module-load state satisfies the lifecycle invariant. -/
lemma Inv_initState : Inv initState := by
  refine ⟨by decide, ?_, ?_⟩ <;> simp [initState]

/-- **C1.** For every sequence of `iotrace_attach_client` /
`iotrace_detach_client` calls in which detach is never called more times
than attach succeeded (`wfFrom`), the tracepoint hook is registered and the
per-processor tracer handles are allocated if and only if the client count
is greater than zero; moreover hook registration (resp. unregistration)
occurs exactly once per 0→positive (resp. positive→0) transition of the
count: per step the action is emitted exactly when the step makes that
transition, and over the whole run the totals agree. -/
theorem c1_hook_iff_clients_positive :
    (∀ ops : List Op, wfFrom initState ops = true →
      0 ≤ (run ops initState).1.clients ∧
      ((run ops initState).1.hookRegistered = true ↔
        0 < (run ops initState).1.clients) ∧
      ((run ops initState).1.tracersOpen = true ↔
        0 < (run ops initState).1.clients) ∧
      countAct .hookReg (run ops initState).2 = countUp initState ops ∧
      countAct .hookUnreg (run ops initState).2 = countDown initState ops) ∧
    (∀ (op : Op) (s : LifeState),
      countAct .hookReg (step op s).2 =
        (if s.clients = 0 ∧ 0 < (step op s).1.clients then 1 else 0) ∧
      countAct .hookUnreg (step op s).2 =
        (if 0 < s.clients ∧ (step op s).1.clients = 0 then 1 else 0)) := by
  constructor
  · intro ops hwf
    have h := run_invariant ops initState Inv_initState hwf
    exact ⟨h.1.1, h.1.2.1, h.1.2.2, h.2.1, h.2.2⟩
  · exact step_hook_counts

/-- An attach environment in which everything succeeds: one online cpu
with an allocated ring, successful open, successful hook registration. -/
def goodEnv : AttachEnv :=
  { initEnv := { allocOk := true, files := [{ hasRing := true, openResult := 0 }] },
    regResult := 0 }

/-- A concrete four-call run exercising `c1_hook_iff_clients_positive`:
attach, attach, detach, detach. -/
def opsPairs : List Op :=
  [.attach goodEnv, .attach goodEnv, .detach, .detach]

/-- Witness for C1 at a concrete run and a concrete step. -/
theorem c1_hook_iff_clients_positive_witness :
    (wfFrom initState opsPairs = true ∧
      0 ≤ (run opsPairs initState).1.clients ∧
      ((run opsPairs initState).1.hookRegistered = true ↔
        0 < (run opsPairs initState).1.clients) ∧
      ((run opsPairs initState).1.tracersOpen = true ↔
        0 < (run opsPairs initState).1.clients) ∧
      countAct .hookReg (run opsPairs initState).2 = countUp initState opsPairs ∧
      countAct .hookUnreg (run opsPairs initState).2 =
        countDown initState opsPairs) ∧
    countAct .hookReg (step (.attach goodEnv) initState).2 =
      (if initState.clients = 0 ∧ 0 < (step (.attach goodEnv) initState).1.clients
        then 1 else 0) :=
  ⟨⟨by decide, c1_hook_iff_clients_positive.1 opsPairs (by decide)⟩,
   (c1_hook_iff_clients_positive.2 (.attach goodEnv) initState).1⟩

/-- **C2.** If `iotrace_attach_client` runs with client count 0, tracer
initialization succeeds and hook registration fails, then the tracers just
opened are torn down (the call's actions are exactly init-then-deinit of
the tracers), the registration error is returned and the state — the
client count in particular — is unchanged; moreover the client count is
not incremented on any failure path of `iotrace_attach_client`. -/
theorem c2_attach_rollback_on_registration_failure :
    ∀ (env : AttachEnv) (s : LifeState),
      s.clients = 0 →
      (init_tracers env.initEnv).result = 0 →
      env.regResult ≠ 0 →
      iotrace_attach_client env s =
        (env.regResult, s, [Action.tracersInit, Action.tracersDeinit]) ∧
      (∀ (env' : AttachEnv) (s' : LifeState),
        (iotrace_attach_client env' s').1 ≠ 0 →
        (iotrace_attach_client env' s').2.1.clients = s'.clients) := by
  intro env s h0 hi hr
  constructor
  · simp [iotrace_attach_client, h0, hi, hr]
  · intro env' s' hfail
    by_cases h0' : s'.clients = 0
    · by_cases hi' : (init_tracers env'.initEnv).result = 0
      · by_cases hr' : env'.regResult = 0
        · simp [iotrace_attach_client, h0', hi', hr'] at hfail
        · simp [iotrace_attach_client, h0', hi', hr']
      · simp [iotrace_attach_client, h0', hi']
    · simp [iotrace_attach_client, h0'] at hfail

/-- An attach environment in which the tracers open but hook registration
is refused by the host with `-EINVAL`. -/
def regFailEnv : AttachEnv :=
  { initEnv := { allocOk := true, files := [{ hasRing := true, openResult := 0 }] },
    regResult := -EINVAL }

/-- Witness for C2: a concrete registration failure at count 0. -/
theorem c2_attach_rollback_on_registration_failure_witness :
    initState.clients = 0 ∧
    (init_tracers regFailEnv.initEnv).result = 0 ∧
    regFailEnv.regResult ≠ 0 ∧
    iotrace_attach_client regFailEnv initState =
      (regFailEnv.regResult, initState,
        [Action.tracersInit, Action.tracersDeinit]) :=
  ⟨by decide, by decide, by decide,
    (c2_attach_rollback_on_registration_failure regFailEnv initState
      (by decide) (by decide) (by decide)).1⟩

/-- **C10.** Calling `iotrace_detach_client` when the client count is
already 0 decrements the count to `-1` and, the result being nonzero,
returns immediately: the hook and the tracers are untouched and no
lifecycle action is performed. Consequently the run consisting of a single
detach from the initial state drives the count negative — the
non-negativity invariant holds only under the precondition `wfFrom`, which
this run violates. -/
theorem c10_detach_below_zero :
    ∀ s : LifeState, s.clients = 0 →
      (iotrace_detach_client s).1.clients = -1 ∧
      (iotrace_detach_client s).1.hookRegistered = s.hookRegistered ∧
      (iotrace_detach_client s).1.tracersOpen = s.tracersOpen ∧
      (iotrace_detach_client s).2 = [] ∧
      ¬ 0 ≤ (run [Op.detach] initState).1.clients ∧
      wfFrom initState [Op.detach] = false := by
  intro s h0
  have hne : ¬ (s.clients - 1 = 0) := by omega
  refine ⟨?_, ?_, ?_, ?_, by decide, by decide⟩ <;>
    simp [iotrace_detach_client, hne, h0]

/-- Witness for C10 at the initial state. -/
theorem c10_detach_below_zero_witness :
    initState.clients = 0 ∧
    (iotrace_detach_client initState).1.clients = -1 ∧
    (iotrace_detach_client initState).2 = [] :=
  ⟨by decide, (c10_detach_below_zero initState (by decide)).1,
    (c10_detach_below_zero initState (by decide)).2.2.2.1⟩

/-- `iotrace_set_buffer_size` (io_trace.c lines 210-221). `size_mb` is a
`uint64_t`; the per-cpu share `size_mb * 1024 * 1024 / num_online_cpus()`
is computed in 64-bit unsigned arithmetic (the product wraps mod `2^64`)
before the validity checks. `maxMb` stands for the configured ceiling
`iotrace_procfs_max_buffer_size_mb` and `numCpus` for `num_online_cpus()`
(both defined outside the shown source, so they are parameters here).
Given the currently stored per-cpu size `stored`, returns the result code
and the per-cpu size stored after the call. -/
def iotrace_set_buffer_size (maxMb numCpus size_mb stored : Nat) : Int × Nat :=
  let size := size_mb * 1024 * 1024 % U64 / numCpus
  if size_mb > maxMb ∨ size = 0 then (-EINVAL, stored)
  else (0, size)

/-- `iotrace_get_buffer_size` (io_trace.c lines 230-234): stored per-cpu
size times the online cpu count (64-bit product), divided by 1024 twice. -/
def iotrace_get_buffer_size (numCpus stored : Nat) : Nat :=
  stored * numCpus % U64 / 1024 / 1024

/-- Result of the `iotrace_procfs_trace_file_alloc` loop of
`iotrace_init_buffers` (lines 264-270): the loop breaks at the first
nonzero per-cpu allocation outcome, so the call returns the first error,
else 0. The allocation outcomes come from procfs code outside the shown
source and are environment inputs. -/
def firstErr : List Int → Int
  | [] => 0
  | r :: rest => if r ≠ 0 then r else firstErr rest

/-- `iotrace_init_buffers` (io_trace.c lines 245-275), the externally
visible buffer-sizing call: under the client mutex, fail with `-EINVAL`
if the client count is nonzero; otherwise run `iotrace_set_buffer_size`
and, on its success, allocate each online cpu's backing file
(`allocResults` are the per-cpu outcomes). Returns the result code and the
stored per-cpu size after the call. -/
def iotrace_init_buffers (maxMb numCpus : Nat) (allocResults : List Int)
    (clients : Int) (size_mb stored : Nat) : Int × Nat :=
  if clients ≠ 0 then (-EINVAL, stored)
  else
    let sres := iotrace_set_buffer_size maxMb numCpus size_mb stored
    if sres.1 ≠ 0 then sres
    else (firstErr allocResults, sres.2)

/-- **C8.** `iotrace_init_buffers` (the `set_buffer_size` API) fails with
`-EINVAL` when the client count is positive, and fails with `-EINVAL`
when the requested total in MiB is 0, exceeds the configured ceiling, or
yields a per-processor byte share of zero after integer division by the
online processor count; in each of these failure cases the stored per-cpu
size is unchanged. (The spec's `InvalidState` and `InvalidArgument` both
map to the kernel's `-EINVAL` here.) -/
theorem c8_set_buffer_size_failure_cases :
    ∀ (maxMb numCpus : Nat) (allocResults : List Int) (clients : Int)
      (size_mb stored : Nat),
      (0 < clients →
        iotrace_init_buffers maxMb numCpus allocResults clients size_mb stored =
          (-EINVAL, stored)) ∧
      (clients = 0 →
        (size_mb = 0 ∨ maxMb < size_mb ∨
          size_mb * 1024 * 1024 % U64 / numCpus = 0) →
        iotrace_init_buffers maxMb numCpus allocResults clients size_mb stored =
          (-EINVAL, stored)) := by
  intro maxMb numCpus allocResults clients size_mb stored
  constructor
  · intro hpos
    have hne : clients ≠ 0 := by omega
    simp [iotrace_init_buffers, hne]
  · intro h0 hbad
    have hcond : size_mb > maxMb ∨ size_mb * 1024 * 1024 % U64 / numCpus = 0 := by
      rcases hbad with h | h | h
      · right
        simp [h]
      · left
        exact h
      · right
        exact h
    have hset : iotrace_set_buffer_size maxMb numCpus size_mb stored =
        (-EINVAL, stored) := by
      unfold iotrace_set_buffer_size
      rw [if_pos hcond]
    have hnz : (-EINVAL : Int) ≠ 0 := by decide
    simp [iotrace_init_buffers, h0, hset, hnz]

/-- Witness for C8: an active client rejects sizing, and a zero request is
rejected, both leaving the stored size untouched. -/
theorem c8_set_buffer_size_failure_cases_witness :
    iotrace_init_buffers 1024 4 [0, 0, 0, 0] 1 16 0 = (-EINVAL, 0) ∧
    iotrace_init_buffers 1024 4 [0, 0, 0, 0] 0 0 0 = (-EINVAL, 0) :=
  ⟨(c8_set_buffer_size_failure_cases 1024 4 [0, 0, 0, 0] 1 16 0).1 (by decide),
   (c8_set_buffer_size_failure_cases 1024 4 [0, 0, 0, 0] 0 0 0).2 rfl
     (Or.inl rfl)⟩

/-- **C9.** After a successful `iotrace_set_buffer_size` call requesting
`size_mb` MiB with `numCpus` online processors (no 64-bit overflow of the
byte total), `iotrace_get_buffer_size` returns
`size_mb * 2^20 / numCpus * numCpus / 2^20` — the per-processor size by
integer division, multiplied back by the processor count and converted to
MiB by integer division. -/
theorem c9_get_after_set_roundtrip :
    ∀ (maxMb numCpus size_mb stored stored' : Nat),
      size_mb * 1024 * 1024 < U64 →
      iotrace_set_buffer_size maxMb numCpus size_mb stored = (0, stored') →
      iotrace_get_buffer_size numCpus stored' =
        size_mb * 2 ^ 20 / numCpus * numCpus / 2 ^ 20 := by
  intro maxMb numCpus size_mb stored stored' hov hset
  unfold iotrace_set_buffer_size at hset
  by_cases hcond : size_mb > maxMb ∨ size_mb * 1024 * 1024 % U64 / numCpus = 0
  · rw [if_pos hcond] at hset
    have : (-EINVAL : Int) = 0 := congrArg Prod.fst hset
    exact absurd this (by decide)
  · rw [if_neg hcond] at hset
    have hstored : stored' = size_mb * 1024 * 1024 % U64 / numCpus :=
      (congrArg Prod.snd hset).symm
    have hm : size_mb * 1024 * 1024 % U64 = size_mb * 1024 * 1024 :=
      Nat.mod_eq_of_lt hov
    have hle : stored' * numCpus ≤ size_mb * 1024 * 1024 := by
      rw [hstored, hm]
      exact Nat.div_mul_le_self _ _
    have hov2 : stored' * numCpus < U64 := lt_of_le_of_lt hle hov
    unfold iotrace_get_buffer_size
    rw [Nat.mod_eq_of_lt hov2, hstored, hm, Nat.div_div_eq_div_mul]
    norm_num [Nat.mul_assoc]

/-- Witness for C9 at the spec's two test points: the round trip of
`X = 1` MiB on `P = 4` returns 1 MiB, and `X = 100` on `P = 7` returns
99 MiB. -/
theorem c9_get_after_set_roundtrip_witness :
    (iotrace_set_buffer_size 1024 4 1 0 = (0, 262144) ∧
      iotrace_get_buffer_size 4 262144 = 1 * 2 ^ 20 / 4 * 4 / 2 ^ 20 ∧
      1 * 2 ^ 20 / 4 * 4 / 2 ^ 20 = 1) ∧
    (iotrace_set_buffer_size 1024 7 100 0 = (0, 14979657) ∧
      iotrace_get_buffer_size 7 14979657 = 100 * 2 ^ 20 / 7 * 7 / 2 ^ 20 ∧
      100 * 2 ^ 20 / 7 * 7 / 2 ^ 20 = 99) :=
  ⟨⟨by decide, c9_get_after_set_roundtrip 1024 4 1 0 262144 (by decide) (by decide),
    by decide⟩,
   ⟨by decide, c9_get_after_set_roundtrip 1024 7 100 0 14979657 (by decide)
      (by decide), by decide⟩⟩

/-- I/O operation recorded in an I/O trace event
(`iotrace_event_operation_rd/wr/discard`). -/
inductive EvOp where
  | rd
  | wr
  | discard
deriving DecidableEq, Repr

/-- `struct iotrace_event`: common header fields (sequence id, timestamp)
plus the I/O payload — operation, flush/FUA flag bits, logical block
address, length in sectors, I/O class, device id. -/
structure IoEvent where
  sid : Nat
  timestamp : Nat
  operation : EvOp
  flagFlush : Bool
  flagFua : Bool
  lba : Nat
  len : Nat
  ioClass : Nat
  devId : Nat
deriving DecidableEq, Repr

/-- `struct iotrace_event_device_desc`: header fields plus device id,
device size and the bounded device name copied by `strcpy`. -/
structure DevDescEvent where
  sid : Nat
  timestamp : Nat
  devId : Nat
  devSize : Nat
  deviceName : List Char
deriving DecidableEq, Repr

/-- A record pushed to a trace ring: one of the two event kinds. -/
inductive EventRecord where
  | io (e : IoEvent)
  | desc (d : DevDescEvent)
deriving DecidableEq, Repr

/-- `struct bio` as seen through the macros of internal/bio.h (kernel
3.10): the predicates on `bi_rw` — data direction (`IOTRACE_BIO_IS_WRITE`),
`REQ_DISCARD`, `REQ_FLUSH`, `REQ_FUA`; the bit masks are host-kernel
constants outside this repository, so the predicates themselves are the
model — together with the start sector `bi_sector`, the byte size
`bi_size`, and the I/O class computed by the external dss helper. -/
structure Bio where
  isWrite : Bool
  isDiscard : Bool
  isFlush : Bool
  isFua : Bool
  biSector : Nat
  biSize : Nat
  ioClass : Nat
deriving DecidableEq, Repr

/-- Modelled from the spec: the octf per-processor ring buffer
(`octf_trace_t`), whose implementation is not under src/. Per spec §4.3
it is a bounded single-producer buffer; occupancy is the list of pushed
records, bounded by `capacity`. -/
structure RingBuffer where
  capacity : Nat
  events : List EventRecord
deriving DecidableEq, Repr

/-- Modelled from the spec: the nonzero "dropped" condition signalled by a
push against a full buffer (the exact code comes from the octf library,
which is not under src/). -/
def OCTF_DROPPED : Int := -1

/-- Modelled from the spec (§4.3): `octf_trace_push` appends one event
when the buffer has room, else drops the event, leaving the buffer
unchanged and signalling the dropped condition. -/
def octf_trace_push (b : RingBuffer) (e : EventRecord) : Int × RingBuffer :=
  if b.events.length < b.capacity then
    (0, { b with events := b.events ++ [e] })
  else (OCTF_DROPPED, b)

/-- Tracing state seen by the emitters: the value of the global 64-bit
sequence counter `state->sid`, the per-cpu ring buffers `state->traces`,
and the audit list of cpus whose poll queue was woken by
`iotrace_notify_of_new_events`, in order. -/
structure EmitState where
  sid : Nat
  buffers : List RingBuffer
  notified : List Nat
deriving DecidableEq, Repr

/-- `iotrace_trace_bio` (io_trace.c lines 43-73): draw a fresh sequence id
(`atomic64_inc_return`, 64-bit), build the I/O event — operation discard
if the bio's discard flag is set, else write if the data direction is
write, else read; flush and FUA flags copied independently of the
operation; `lba` from `bi_sector`; `len` as `bi_size >> SECTOR_SHIFT` —
push it to the buffer of `cpu`, ignore the push result, and wake that
cpu's waiter. The C function is `void`: the new state is the only effect
observable to the caller. -/
def iotrace_trace_bio (cpu devId : Nat) (bio : Bio) (now : Nat)
    (s : EmitState) : EmitState :=
  let sid := (s.sid + 1) % U64
  let ev : IoEvent :=
    { sid := sid, timestamp := now,
      operation :=
        if bio.isDiscard then .discard else if bio.isWrite then .wr else .rd,
      flagFlush := bio.isFlush, flagFua := bio.isFua,
      lba := bio.biSector, len := bio.biSize >>> SECTOR_SHIFT,
      ioClass := bio.ioClass, devId := devId }
  let pres := octf_trace_push (s.buffers.getD cpu ⟨0, []⟩) (.io ev)
  { sid := sid, buffers := s.buffers.set cpu pres.2,
    notified := s.notified ++ [cpu] }

/-- `strnlen`: length of a C string, capped at `maxlen`. -/
def strnlen (name : List Char) (maxlen : Nat) : Nat :=
  min name.length maxlen

/-- `iotrace_trace_desc` (io_trace.c lines 86-112): draw a fresh sequence
id first, then reject with `-ENOSPC` any device name that does not fit the
fixed-size `device_name` field — `cap` stands for
`sizeof(desc.device_name)`, a constant of iotrace_event.h, which is not
under src/ and is therefore a parameter. Otherwise build the descriptor,
push it to `cpu`'s buffer, wake that cpu's waiter, and return the push
result. -/
def iotrace_trace_desc (cap cpu devId : Nat) (devName : List Char)
    (devSize now : Nat) (s : EmitState) : Int × EmitState :=
  let sid := (s.sid + 1) % U64
  if strnlen devName cap ≥ cap then
    (-ENOSPC, { s with sid := sid })
  else
    let d : DevDescEvent :=
      { sid := sid, timestamp := now, devId := devId, devSize := devSize,
        deviceName := devName }
    let pres := octf_trace_push (s.buffers.getD cpu ⟨0, []⟩) (.desc d)
    (pres.1,
      { sid := sid, buffers := s.buffers.set cpu pres.2,
        notified := s.notified ++ [cpu] })

/-- One emitter call with all its arguments. -/
inductive EmitOp where
  | bio (cpu devId : Nat) (b : Bio) (now : Nat)
  | desc (cpu devId : Nat) (name : List Char) (devSize now : Nat)
deriving DecidableEq, Repr

/-- Execute one emitter call; `cap` is the device-name capacity constant. -/
def emitStep (cap : Nat) : EmitOp → EmitState → EmitState
  | .bio cpu devId b now, s => iotrace_trace_bio cpu devId b now s
  | .desc cpu devId name devSize now, s =>
    (iotrace_trace_desc cap cpu devId name devSize now s).2

/-- Sequence ids issued by a sequence of emitter calls, in issue order:
each call issues the value of the shared counter right after its atomic
increment (which is also the updated counter value). -/
def issuedIds (cap : Nat) : List EmitOp → EmitState → List Nat
  | [], _ => []
  | op :: rest, s =>
    (emitStep cap op s).sid :: issuedIds cap rest (emitStep cap op s)

/-- Every emitter call — both event kinds, accepted or rejected — leaves
the counter at its old value plus one, mod 2^64. -/
lemma emitStep_sid (cap : Nat) (op : EmitOp) (s : EmitState) :
    (emitStep cap op s).sid = (s.sid + 1) % U64 := by
  cases op with
  | bio cpu devId b now => rfl
  | desc cpu devId name devSize now =>
    by_cases h : strnlen name cap ≥ cap
    · simp [emitStep, iotrace_trace_desc, h]
    · simp [emitStep, iotrace_trace_desc, h]

/-- Closed form of the issued ids: successive counter values mod 2^64. -/
lemma issuedIds_formula (cap : Nat) (ops : List EmitOp) :
    ∀ s : EmitState, issuedIds cap ops s =
      (List.range ops.length).map (fun i => (s.sid + 1 + i) % U64) := by
  induction ops with
  | nil => intro s; rfl
  | cons op rest ih =>
    intro s
    show (emitStep cap op s).sid :: issuedIds cap rest (emitStep cap op s) = _
    rw [ih (emitStep cap op s), emitStep_sid, List.length_cons,
      List.range_succ_eq_map, List.map_cons, List.map_map]
    refine congrArg₂ List.cons (by simp) ?_
    apply List.map_congr_left
    intro i _
    show ((s.sid + 1) % U64 + 1 + i) % U64 = (s.sid + 1 + (i + 1)) % U64
    rw [Nat.add_assoc ((s.sid + 1) % U64) 1 i, Nat.mod_add_mod]
    ring_nf

/-- Emitter state at module load: zeroed counter (`atomic64_t` in the
zero-initialized context), one online cpu with an empty ring of capacity
8, nobody notified yet. -/
def emitInit : EmitState :=
  { sid := 0, buffers := [{ capacity := 8, events := [] }], notified := [] }

/-- A bio carrying no flags: a plain read of 0 sectors at sector 0. -/
def bio0 : Bio :=
  { isWrite := false, isDiscard := false, isFlush := false, isFua := false,
    biSector := 0, biSize := 0, ioClass := 0 }

/-- Counterexample to C4 as stated: over a sequence of 2^64 emit calls the
64-bit counter wraps, so the issued ids are not strictly increasing in
issue order (the 2^64-th id is 0, below the first id 1). -/
theorem c4_counterexample_wraparound :
    ¬ List.Pairwise (· < ·)
        (issuedIds 32 (List.replicate U64 (EmitOp.bio 0 0 bio0 0)) emitInit) := by
  intro hpair
  rw [issuedIds_formula] at hpair
  have hU2 : (2 : Nat) ≤ U64 := by norm_num [U64]
  rw [List.pairwise_map, List.pairwise_iff_getElem] at hpair
  have h01 := hpair 0 (U64 - 1) (by simp; omega) (by simp; omega) (by omega)
  simp only [List.getElem_range] at h01
  have ha : (emitInit.sid + 1 + 0) % U64 = 1 := by
    rw [show emitInit.sid + 1 + 0 = 1 from rfl]
    exact Nat.mod_eq_of_lt (by omega)
  have hb : (emitInit.sid + 1 + (U64 - 1)) % U64 = 0 := by
    rw [show emitInit.sid + 1 + (U64 - 1) = 0 + 1 + (U64 - 1) from rfl,
      show 0 + 1 + (U64 - 1) = U64 by omega, Nat.mod_self]
  rw [ha, hb] at h01
  exact absurd h01 (by omega)

/-- **C4** (amended: over fewer than 2^64 emit calls, since the shared
counter is 64-bit and wraps). Starting from the freshly initialized
counter, every emitted event — I/O or device-descriptor, on any
processor — carries a sequence id obtained by atomically incrementing the
single process-wide 64-bit counter, and across the sequence the issued
ids are exactly 1, 2, ..., n in issue order: pairwise distinct, strictly
increasing, with no id reused or skipped by the emitter itself. -/
theorem c4_sequence_ids_strictly_increasing :
    ∀ (cap : Nat) (ops : List EmitOp) (s : EmitState),
      s.sid = 0 → ops.length < U64 →
      issuedIds cap ops s = (List.range ops.length).map (· + 1) ∧
      List.Pairwise (· < ·) (issuedIds cap ops s) := by
  intro cap ops s h0 hlen
  have heq : issuedIds cap ops s = (List.range ops.length).map (· + 1) := by
    rw [issuedIds_formula, h0]
    apply List.map_congr_left
    intro i hi
    have hi' : i < ops.length := List.mem_range.mp hi
    have h1 : 0 + 1 + i < U64 := by omega
    rw [Nat.mod_eq_of_lt h1]
    omega
  refine ⟨heq, ?_⟩
  rw [heq, List.pairwise_map]
  exact (List.pairwise_lt_range _).imp (fun h => by omega)

/-- A concrete two-call emit sequence: one I/O event, one descriptor. -/
def emitOpsPair : List EmitOp :=
  [.bio 0 0 bio0 0, .desc 0 0 [] 0 0]

/-- Witness for the amended C4 at a concrete two-call sequence. -/
theorem c4_sequence_ids_strictly_increasing_witness :
    issuedIds 32 emitOpsPair emitInit =
      (List.range emitOpsPair.length).map (· + 1) ∧
    List.Pairwise (· < ·) (issuedIds 32 emitOpsPair emitInit) :=
  c4_sequence_ids_strictly_increasing 32 emitOpsPair emitInit rfl
    (by show 2 < 2 ^ 64; norm_num)

lemma getD_set_self {α : Type} (l : List α) (i : Nat) (a d : α)
    (h : i < l.length) : (l.set i a).getD i d = a := by
  rw [List.getD_eq_getElem?_getD, List.getElem?_set_self h]
  rfl

lemma getD_set_ne {α : Type} (l : List α) (i j : Nat) (a d : α)
    (h : i ≠ j) : (l.set i a).getD j d = l.getD j d := by
  rw [List.getD_eq_getElem?_getD, List.getElem?_set_ne h,
    ← List.getD_eq_getElem?_getD]

/-- Rejected descriptor push: with a name at or past the capacity,
`iotrace_trace_desc` returns `-ENOSPC` having advanced only the sequence
counter — no push, no notification. -/
lemma trace_desc_reject (cap cpu devId : Nat) (name : List Char)
    (devSize now : Nat) (s : EmitState) (h : cap ≤ name.length) :
    iotrace_trace_desc cap cpu devId name devSize now s =
      (-ENOSPC, { s with sid := (s.sid + 1) % U64 }) := by
  have hchk : strnlen name cap ≥ cap := by
    simp only [strnlen]
    omega
  simp [iotrace_trace_desc, hchk]

/-- **C5.** `iotrace_trace_desc` with a device name of length exactly
`cap - 1` (the capacity minus one, leaving room for the terminator)
passes the length check and — when the target cpu's ring has room —
succeeds, appending the descriptor; with a name of length at or above the
capacity it fails with `-ENOSPC` before any push or notification is
performed: every buffer's occupancy and the notification list are
unchanged. -/
theorem c5_device_name_capacity :
    ∀ (cap cpu devId : Nat) (name : List Char) (devSize now : Nat)
      (s : EmitState),
      0 < cap →
      (name.length = cap - 1 →
        (s.buffers.getD cpu ⟨0, []⟩).events.length <
            (s.buffers.getD cpu ⟨0, []⟩).capacity →
        (iotrace_trace_desc cap cpu devId name devSize now s).1 = 0 ∧
        ((iotrace_trace_desc cap cpu devId name devSize now s).2.buffers.getD
            cpu ⟨0, []⟩).events =
          (s.buffers.getD cpu ⟨0, []⟩).events ++
            [EventRecord.desc ⟨(s.sid + 1) % U64, now, devId, devSize, name⟩]) ∧
      (cap ≤ name.length →
        (iotrace_trace_desc cap cpu devId name devSize now s).1 = -ENOSPC ∧
        (iotrace_trace_desc cap cpu devId name devSize now s).2.buffers =
          s.buffers ∧
        (iotrace_trace_desc cap cpu devId name devSize now s).2.notified =
          s.notified) := by
  intro cap cpu devId name devSize now s hcap
  constructor
  · intro hlen hroom
    by_cases hcpu : cpu < s.buffers.length
    · have hchk : ¬ strnlen name cap ≥ cap := by
        simp only [strnlen]
        omega
      have hres : iotrace_trace_desc cap cpu devId name devSize now s =
          ((octf_trace_push (s.buffers.getD cpu ⟨0, []⟩)
              (.desc ⟨(s.sid + 1) % U64, now, devId, devSize, name⟩)).1,
            { sid := (s.sid + 1) % U64,
              buffers := s.buffers.set cpu
                (octf_trace_push (s.buffers.getD cpu ⟨0, []⟩)
                  (.desc ⟨(s.sid + 1) % U64, now, devId, devSize, name⟩)).2,
              notified := s.notified ++ [cpu] }) := by
        simp only [iotrace_trace_desc, hchk, if_neg, ite_false]
      have hpush : octf_trace_push (s.buffers.getD cpu ⟨0, []⟩)
          (.desc ⟨(s.sid + 1) % U64, now, devId, devSize, name⟩) =
          (0, { capacity := (s.buffers.getD cpu ⟨0, []⟩).capacity,
                events := (s.buffers.getD cpu ⟨0, []⟩).events ++
                  [EventRecord.desc
                    ⟨(s.sid + 1) % U64, now, devId, devSize, name⟩] }) := by
        unfold octf_trace_push
        rw [if_pos hroom]
      constructor
      · rw [hres, hpush]
      · rw [hres]
        show ((s.buffers.set cpu (octf_trace_push (s.buffers.getD cpu ⟨0, []⟩)
            (.desc ⟨(s.sid + 1) % U64, now, devId, devSize, name⟩)).2).getD cpu
            ⟨0, []⟩).events = _
        rw [getD_set_self _ _ _ _ hcpu, hpush]
    · exfalso
      rw [List.getD_eq_default _ _ (by omega)] at hroom
      exact absurd hroom (by simp)
  · intro hge
    rw [trace_desc_reject cap cpu devId name devSize now s hge]
    exact ⟨rfl, rfl, rfl⟩

/-- Witness for C5: capacity 4: a 3-character name is accepted and lands
in the buffer; a 4-character name is rejected with `-ENOSPC` and mutates
nothing. -/
theorem c5_device_name_capacity_witness :
    (([] : List Char).length = 4 - 1 → True) ∧
    ((iotrace_trace_desc 4 0 9 [Char.ofNat 97, Char.ofNat 98, Char.ofNat 99]
        33 5 emitInit).1 = 0 ∧
      ((iotrace_trace_desc 4 0 9 [Char.ofNat 97, Char.ofNat 98, Char.ofNat 99]
          33 5 emitInit).2.buffers.getD 0 ⟨0, []⟩).events =
        (emitInit.buffers.getD 0 ⟨0, []⟩).events ++
          [EventRecord.desc ⟨(emitInit.sid + 1) % U64, 5, 9, 33,
            [Char.ofNat 97, Char.ofNat 98, Char.ofNat 99]⟩]) ∧
    ((iotrace_trace_desc 4 0 9
        [Char.ofNat 97, Char.ofNat 98, Char.ofNat 99, Char.ofNat 100]
        33 5 emitInit).1 = -ENOSPC ∧
      (iotrace_trace_desc 4 0 9
        [Char.ofNat 97, Char.ofNat 98, Char.ofNat 99, Char.ofNat 100]
        33 5 emitInit).2.buffers = emitInit.buffers ∧
      (iotrace_trace_desc 4 0 9
        [Char.ofNat 97, Char.ofNat 98, Char.ofNat 99, Char.ofNat 100]
        33 5 emitInit).2.notified = emitInit.notified) :=
  ⟨fun _ => trivial,
   (c5_device_name_capacity 4 0 9 [Char.ofNat 97, Char.ofNat 98, Char.ofNat 99]
      33 5 emitInit (by decide)).1 (by decide) (by decide),
   (c5_device_name_capacity 4 0 9
      [Char.ofNat 97, Char.ofNat 98, Char.ofNat 99, Char.ofNat 100]
      33 5 emitInit (by decide)).2 (by decide)⟩

/-- **C6.** Every `iotrace_trace_desc` call advances the global sequence
counter by exactly one (mod 2^64), including calls rejected with
`-ENOSPC`: the sequence id is drawn before the name-length check, so a
rejected descriptor still consumes an id while mutating nothing else
(buffers and notifications unchanged). -/
theorem c6_desc_always_consumes_sid :
    ∀ (cap cpu devId : Nat) (name : List Char) (devSize now : Nat)
      (s : EmitState),
      (iotrace_trace_desc cap cpu devId name devSize now s).2.sid =
        (s.sid + 1) % U64 ∧
      (cap ≤ name.length →
        (iotrace_trace_desc cap cpu devId name devSize now s).1 = -ENOSPC ∧
        (iotrace_trace_desc cap cpu devId name devSize now s).2.buffers =
          s.buffers ∧
        (iotrace_trace_desc cap cpu devId name devSize now s).2.notified =
          s.notified) := by
  intro cap cpu devId name devSize now s
  constructor
  · by_cases h : strnlen name cap ≥ cap
    · simp [iotrace_trace_desc, h]
    · simp [iotrace_trace_desc, h]
  · intro hge
    rw [trace_desc_reject cap cpu devId name devSize now s hge]
    exact ⟨rfl, rfl, rfl⟩

/-- Witness for C6: a rejected descriptor (empty capacity 0 makes any name
too long) still advances the counter from 0 to 1 and mutates nothing
else. -/
theorem c6_desc_always_consumes_sid_witness :
    (iotrace_trace_desc 0 0 9 [] 33 5 emitInit).2.sid =
      (emitInit.sid + 1) % U64 ∧
    ((iotrace_trace_desc 0 0 9 [] 33 5 emitInit).1 = -ENOSPC ∧
      (iotrace_trace_desc 0 0 9 [] 33 5 emitInit).2.buffers =
        emitInit.buffers ∧
      (iotrace_trace_desc 0 0 9 [] 33 5 emitInit).2.notified =
        emitInit.notified) :=
  ⟨(c6_desc_always_consumes_sid 0 0 9 [] 33 5 emitInit).1,
   (c6_desc_always_consumes_sid 0 0 9 [] 33 5 emitInit).2 (by decide)⟩

/-- **C7.** `iotrace_trace_bio` builds an event whose operation is discard
if the bio's discard flag is set, else write if the bio's data direction
is write, else read; copies the flush and FUA flags independently of the
operation; records `lba` from `bi_sector` and `len` as `bi_size` shifted
right by `SECTOR_SHIFT = 9`; pushes the record to the buffer of the given
cpu (every other cpu's buffer is untouched); appends the cpu to the
notification list after the push regardless of the push's outcome; and —
being `void` in C — returns no value observable to the caller: the
resulting state is the entire effect. -/
theorem c7_trace_bio_shape :
    ∀ (cpu devId : Nat) (bio : Bio) (now : Nat) (s : EmitState),
      ∃ ev : IoEvent,
        iotrace_trace_bio cpu devId bio now s =
          { sid := (s.sid + 1) % U64,
            buffers := s.buffers.set cpu
              (octf_trace_push (s.buffers.getD cpu ⟨0, []⟩) (.io ev)).2,
            notified := s.notified ++ [cpu] } ∧
        ev.operation =
          (if bio.isDiscard then .discard
            else if bio.isWrite then .wr else .rd) ∧
        ev.flagFlush = bio.isFlush ∧
        ev.flagFua = bio.isFua ∧
        ev.lba = bio.biSector ∧
        ev.len = bio.biSize >>> SECTOR_SHIFT ∧
        ev.ioClass = bio.ioClass ∧
        ev.devId = devId ∧
        ev.sid = (s.sid + 1) % U64 ∧
        ev.timestamp = now ∧
        (∀ j, j ≠ cpu →
          (iotrace_trace_bio cpu devId bio now s).buffers.getD j ⟨0, []⟩ =
            s.buffers.getD j ⟨0, []⟩) := by
  intro cpu devId bio now s
  refine ⟨⟨(s.sid + 1) % U64, now,
    (if bio.isDiscard then .discard else if bio.isWrite then .wr else .rd),
    bio.isFlush, bio.isFua, bio.biSector, bio.biSize >>> SECTOR_SHIFT,
    bio.ioClass, devId⟩,
    rfl, rfl, rfl, rfl, rfl, rfl, rfl, rfl, rfl, rfl, ?_⟩
  intro j hj
  show (s.buffers.set cpu _).getD j ⟨0, []⟩ = s.buffers.getD j ⟨0, []⟩
  exact getD_set_ne _ _ _ _ _ (fun h => hj h.symm)

/-- If some online cpu's ring is missing, the open scan does not return
success. -/
lemma scanOpen_ne_zero_of_missing :
    ∀ (files : List ProcFile) (i : Nat),
      (∃ f ∈ files, f.hasRing = false) → (scanOpen files i).1 ≠ 0 := by
  intro files
  induction files with
  | nil =>
    intro i h
    simp at h
  | cons f rest ih =>
    intro i h
    by_cases hr : f.hasRing = true
    · by_cases ho : f.openResult = 0
      · have hrest : ∃ g ∈ rest, g.hasRing = false := by
          rcases h with ⟨g, hg, hgr⟩
          rcases List.mem_cons.mp hg with h' | hgrest
          · rw [h', hr] at hgr
            cases hgr
          · exact ⟨g, hgrest, hgr⟩
        simpa [scanOpen, hr, ho] using ih (i + 1) hrest
      · simp [scanOpen, hr, ho]
    · have hr' : f.hasRing = false := by
        cases hf : f.hasRing
        · rfl
        · exact absurd hf hr
      have hE : ¬ (EINVAL : Int) = 0 := by decide
      have hE2 : (-EINVAL : Int) ≠ 0 := by decide
      simp [scanOpen, hr', hE, hE2]

/-- Every cpu index recorded as opened by the scan lies below the number
of online cpus (shifted by the start index). -/
lemma scanOpen_opened_lt :
    ∀ (files : List ProcFile) (i j : Nat),
      j ∈ (scanOpen files i).2 → j < i + files.length := by
  intro files
  induction files with
  | nil =>
    intro i j h
    simp [scanOpen] at h
  | cons f rest ih =>
    intro i j h
    by_cases hr : f.hasRing = true
    · by_cases ho : f.openResult = 0
      · simp only [scanOpen, hr, ho] at h
        simp at h
        rcases h with h' | h2
        · rw [h']
          simp only [List.length_cons]
          omega
        · have hlt := ih (i + 1) j h2
          simp only [List.length_cons]
          omega
      · simp [scanOpen, hr, ho] at h
    · have hr' : f.hasRing = false := by
        cases hf : f.hasRing
        · rfl
        · exact absurd hf hr
      simp [scanOpen, hr'] at h

/-- When every file before the first missing ring is present and opens
successfully, the scan stops at the missing ring with `-EINVAL`. -/
lemma scanOpen_first_missing :
    ∀ (pre : List ProcFile) (f : ProcFile) (post : List ProcFile) (i : Nat),
      (∀ g ∈ pre, g.hasRing = true ∧ g.openResult = 0) →
      f.hasRing = false →
      (scanOpen (pre ++ f :: post) i).1 = -EINVAL := by
  intro pre
  induction pre with
  | nil =>
    intro f post i _ hf
    simp [scanOpen, hf]
  | cons g rest ih =>
    intro f post i hpre hf
    have hg := hpre g (List.mem_cons_self g rest)
    have hrec := ih f post (i + 1)
      (fun g' hg' => hpre g' (List.mem_cons_of_mem _ hg')) hf
    simpa [scanOpen, hg.1, hg.2] using hrec

/-- When every file before the first failing open is present and opens
successfully, the scan stops at the failing open and propagates its
error. -/
lemma scanOpen_first_open_fail :
    ∀ (pre : List ProcFile) (f : ProcFile) (post : List ProcFile) (i : Nat),
      (∀ g ∈ pre, g.hasRing = true ∧ g.openResult = 0) →
      f.hasRing = true → f.openResult ≠ 0 →
      (scanOpen (pre ++ f :: post) i).1 = f.openResult := by
  intro pre
  induction pre with
  | nil =>
    intro f post i _ hf ho
    simp [scanOpen, hf, ho]
  | cons g rest ih =>
    intro f post i hpre hf ho
    have hg := hpre g (List.mem_cons_self g rest)
    have hrec := ih f post (i + 1)
      (fun g' hg' => hpre g' (List.mem_cons_of_mem _ hg')) hf ho
    simpa [scanOpen, hg.1, hg.2] using hrec

/-- With every ring present and every open succeeding, the scan returns
success. -/
lemma scanOpen_all_good :
    ∀ (files : List ProcFile) (i : Nat),
      (∀ f ∈ files, f.hasRing = true ∧ f.openResult = 0) →
      (scanOpen files i).1 = 0 := by
  intro files
  induction files with
  | nil =>
    intro i _
    rfl
  | cons f rest ih =>
    intro i hall
    have hf := hall f (List.mem_cons_self f rest)
    have hrec := ih (i + 1) (fun g hg => hall g (List.mem_cons_of_mem _ hg))
    simpa [scanOpen, hf.1, hf.2] using hrec

/-- An environment whose cpu 0 is properly backed and opens fine while
cpu 1's backing ring is missing: activation reaches cpu 1 and fails with
`-EINVAL`. -/
def missingRingEnv : InitEnv :=
  { allocOk := true,
    files := [{ hasRing := true, openResult := 0 },
      { hasRing := false, openResult := 0 }] }

/-- An `init_tracers` environment refuting C3's error-code clause as
universally stated: cpu 0's ring is present but its open fails with
`-ENOMEM`; cpu 1's ring is missing. The scan breaks at cpu 0, so the call
fails with `-ENOMEM`, not with `-EINVAL` (the PreconditionFailed code),
although a ring is missing. -/
def mixedFailEnv : InitEnv :=
  { allocOk := true,
    files := [{ hasRing := true, openResult := -ENOMEM },
      { hasRing := false, openResult := 0 }] }

/-- Counterexample to C3 as stated: an environment with a missing backing
ring on an online cpu in which activation fails with the earlier cpu's
open error `-ENOMEM` rather than with `-EINVAL`. -/
theorem c3_counterexample_error_code :
    (mixedFailEnv.files.any (fun f => !f.hasRing)) = true ∧
    (init_tracers mixedFailEnv).result ≠ -EINVAL ∧
    (init_tracers mixedFailEnv).result = -ENOMEM := by
  exact ⟨by decide, by decide, by decide⟩

/-- **C3** (amended: a missing backing ring always makes the activation
fail, and it fails with `-EINVAL` (PreconditionFailed) when every earlier
processor's ring was present and opened successfully — in general the
scan propagates the first error encountered, so an earlier open failure
takes precedence). On any failure the whole activation is rolled back:
the per-processor handle table is released and every cpu opened so far in
the call is among the cpus closed; an open failure propagates its own
error; and the system stays in Idle, so a subsequent attach with every
processor properly backed succeeds. -/
theorem c3_activation_failure_rollback :
    (∀ env : InitEnv, (∃ f ∈ env.files, f.hasRing = false) →
      (init_tracers env).result ≠ 0) ∧
    (∀ (pre : List ProcFile) (f : ProcFile) (post : List ProcFile),
      (∀ g ∈ pre, g.hasRing = true ∧ g.openResult = 0) →
      f.hasRing = false →
      (init_tracers { allocOk := true, files := pre ++ f :: post }).result =
        -EINVAL) ∧
    (∀ (pre : List ProcFile) (f : ProcFile) (post : List ProcFile),
      (∀ g ∈ pre, g.hasRing = true ∧ g.openResult = 0) →
      f.hasRing = true → f.openResult ≠ 0 →
      (init_tracers { allocOk := true, files := pre ++ f :: post }).result =
        f.openResult) ∧
    (∀ env : InitEnv, (init_tracers env).result ≠ 0 →
      (init_tracers env).tableAllocated = false ∧
      ∀ j ∈ (init_tracers env).opened, j ∈ (init_tracers env).closed) ∧
    (∀ (env : AttachEnv) (s : LifeState), s.clients = 0 →
      env.initEnv.allocOk = true →
      (∀ f ∈ env.initEnv.files, f.hasRing = true ∧ f.openResult = 0) →
      env.regResult = 0 →
      iotrace_attach_client env s =
        (0, { clients := 1, hookRegistered := true, tracersOpen := true },
          [Action.tracersInit, Action.hookReg])) := by
  refine ⟨?_, ?_, ?_, ?_, ?_⟩
  · intro env hmiss
    by_cases ha : env.allocOk = true
    · have hscan := scanOpen_ne_zero_of_missing env.files 0 hmiss
      simp [init_tracers, ha, hscan]
    · simp [init_tracers, ha]
      decide
  · intro pre f post hpre hf
    have hscan := scanOpen_first_missing pre f post 0 hpre hf
    have hE : ¬ (EINVAL : Int) = 0 := by decide
    simp [init_tracers, hscan, hE]
  · intro pre f post hpre hf ho
    have hscan := scanOpen_first_open_fail pre f post 0 hpre hf ho
    simp [init_tracers, hscan, ho]
  · intro env hfail
    by_cases ha : env.allocOk = true
    · by_cases hs : (scanOpen env.files 0).1 = 0
      · exfalso
        exact hfail (by simp [init_tracers, ha, hs])
      · constructor
        · simp [init_tracers, ha, hs]
        · intro j hj
          have hj' : j ∈ (scanOpen env.files 0).2 := by
            simpa [init_tracers, ha, hs] using hj
          have hlt := scanOpen_opened_lt env.files 0 j hj'
          simp [init_tracers, ha, hs, List.mem_range]
          omega
    · constructor
      · simp [init_tracers, ha]
      · intro j hj
        simp [init_tracers, ha] at hj
  · intro env s h0 ha hall hreg
    have hscan := scanOpen_all_good env.initEnv.files 0 hall
    have hinit : (init_tracers env.initEnv).result = 0 := by
      simp [init_tracers, ha, hscan]
    simp [iotrace_attach_client, h0, hinit, hreg]

/-- Witness for the amended C3: a concrete missing-ring failure with
`-EINVAL`, the rollback audit on the mixed-failure environment, and a
successful re-attach from Idle with a properly backed processor. -/
theorem c3_activation_failure_rollback_witness :
    (init_tracers missingRingEnv).result = -EINVAL ∧
    ((init_tracers mixedFailEnv).tableAllocated = false ∧
      ∀ j ∈ (init_tracers mixedFailEnv).opened,
        j ∈ (init_tracers mixedFailEnv).closed) ∧
    iotrace_attach_client goodEnv initState =
      (0, { clients := 1, hookRegistered := true, tracersOpen := true },
        [Action.tracersInit, Action.hookReg]) :=
  ⟨c3_activation_failure_rollback.2.1 [{ hasRing := true, openResult := 0 }]
      { hasRing := false, openResult := 0 } [] (by decide) rfl,
   c3_activation_failure_rollback.2.2.2.1 mixedFailEnv (by decide),
   c3_activation_failure_rollback.2.2.2.2 goodEnv initState rfl rfl
     (by decide) rfl⟩

/-- A write bio with the flush flag: sector 1024, 4096 bytes. -/
def bioW : Bio :=
  { isWrite := true, isDiscard := false, isFlush := true, isFua := false,
    biSector := 1024, biSize := 4096, ioClass := 0 }

/-- Witness for C7 at a concrete write bio on cpu 0: the notification is
appended and cpu 1's (absent) buffer view is unchanged. -/
theorem c7_trace_bio_shape_witness :
    (iotrace_trace_bio 0 7 bioW 5 emitInit).notified =
      emitInit.notified ++ [0] ∧
    (iotrace_trace_bio 0 7 bioW 5 emitInit).buffers.getD 1 ⟨0, []⟩ =
      emitInit.buffers.getD 1 ⟨0, []⟩ := by
  obtain ⟨ev, heq, -, -, -, -, -, -, -, -, -, hother⟩ :=
    c7_trace_bio_shape 0 7 bioW 5 emitInit
  exact ⟨by rw [heq], hother 1 (by decide)⟩

end IoTraceModel
